import Mathlib

/-!
Shallow embedding of the raypy2d ray-tracing core (rays.py, elements/base.py,
elements/aperture.py, elements/diffraction_grating.py, elements/parabolic_mirror.py,
utils.py, paths.py) and proofs checking the natural-language specification
against it.

Two layers are used:
* `EF`, an extended numeric type over `ℚ` with `nan`, `inf` and `ninf`,
  models the IEEE-float sentinel behaviour that rays.py relies on
  (`np.nan` as the "unset / invalidated" marker, comparisons with `nan`
  being false, division by zero producing infinities, `nan != nan`).
  Everything over `EF` is computable, so concrete counterexamples evaluate.
* Plain `ℝ` models the trigonometric parts (frame rotation, the grating
  equation, the parabolic-mirror intersection), where float rounding is
  abstracted to exact real arithmetic.
-/

namespace RayPy

/-- Extended numeric value: a rational, `nan`, or a signed infinity.
Models the IEEE-double values that flow through rays.py. -/
inductive EF where
  | nan : EF
  | inf : EF
  | ninf : EF
  | fin : ℚ → EF
deriving DecidableEq, Repr

namespace EF

/-- IEEE addition on extended values. -/
def add : EF → EF → EF
  | nan, _ => nan
  | _, nan => nan
  | inf, ninf => nan
  | ninf, inf => nan
  | inf, _ => inf
  | _, inf => inf
  | ninf, _ => ninf
  | _, ninf => ninf
  | fin a, fin b => fin (a + b)

/-- IEEE negation on extended values. -/
def neg : EF → EF
  | nan => nan
  | inf => ninf
  | ninf => inf
  | fin a => fin (-a)

/-- IEEE subtraction on extended values. -/
def sub (a b : EF) : EF := add a (neg b)

/-- IEEE multiplication on extended values (`inf * 0 = nan`). -/
def mul : EF → EF → EF
  | nan, _ => nan
  | _, nan => nan
  | inf, inf => inf
  | inf, ninf => ninf
  | ninf, inf => ninf
  | ninf, ninf => inf
  | inf, fin b => if 0 < b then inf else if b < 0 then ninf else nan
  | fin a, inf => if 0 < a then inf else if a < 0 then ninf else nan
  | ninf, fin b => if 0 < b then ninf else if b < 0 then inf else nan
  | fin a, ninf => if 0 < a then ninf else if a < 0 then inf else nan
  | fin a, fin b => fin (a * b)

/-- IEEE division on extended values; a nonzero finite numerator over zero
gives a signed infinity, `0/0` gives `nan` (numpy semantics with a positive
zero divisor). -/
def div : EF → EF → EF
  | nan, _ => nan
  | _, nan => nan
  | inf, inf => nan
  | inf, ninf => nan
  | ninf, inf => nan
  | ninf, ninf => nan
  | inf, fin b => if 0 ≤ b then inf else ninf
  | ninf, fin b => if 0 ≤ b then ninf else inf
  | fin _, inf => fin 0
  | fin _, ninf => fin 0
  | fin a, fin b =>
      if b = 0 then (if 0 < a then inf else if a < 0 then ninf else nan)
      else fin (a / b)

/-- IEEE strict less-than: any comparison involving `nan` is false. -/
def lt : EF → EF → Bool
  | nan, _ => false
  | _, nan => false
  | ninf, ninf => false
  | ninf, _ => true
  | _, ninf => false
  | inf, _ => false
  | fin _, inf => true
  | fin a, fin b => decide (a < b)

/-- IEEE strict greater-than. -/
def gt (a b : EF) : Bool := lt b a

/-- Test for the `nan` sentinel (`np.isnan`). -/
def isnan : EF → Bool
  | nan => true
  | _ => false

/-- IEEE absolute value. -/
def abs : EF → EF
  | nan => nan
  | inf => inf
  | ninf => inf
  | fin a => fin |a|

/-- IEEE equality test: `nan` is equal to nothing, including itself. -/
def feq : EF → EF → Bool
  | nan, _ => false
  | _, nan => false
  | inf, inf => true
  | ninf, ninf => true
  | fin a, fin b => decide (a = b)
  | _, _ => false

end EF

/-- A ray row of the `Rays` table (rays.py): columns
x, y, tan_theta, forward, group, wavelength. -/
structure Ray where
  x : EF
  y : EF
  tan_theta : EF
  forward : EF
  group : EF
  wavelength : EF
deriving DecidableEq, Repr

/-- Free-space propagation of a ray batch to the plane `x = target`
(rays.py, `propagate`): `dx = x - rays.x`, `y += tan_theta * dx`,
`x = target`; then `dx[isnan(dx)] = 0` and every row with
`xor(dx > 0, forward > 0)` has its `y` set to `nan`. -/
def propagate (rows : List Ray) (target : EF) : List Ray :=
  rows.map (fun r =>
    let dx := target.sub r.x
    let newY := r.y.add (r.tan_theta.mul dx)
    let dx0 := if dx.isnan then EF.fin 0 else dx
    let blocked := Bool.xor (dx0.gt (EF.fin 0)) (r.forward.gt (EF.fin 0))
    { r with x := target, y := if blocked then EF.nan else newY })

/-- Vignetting of an `Aperture` of the given diameter
(elements/aperture.py, `Aperture.block`): `abs_y = |y|`,
`abs_y[isnan(abs_y)] = +inf`, and rows with `abs_y > diameter/2` get
column 2 (`tan_theta`) set to `nan`. -/
def Aperture.block (diameter : ℚ) (rows : List Ray) : List Ray :=
  rows.map (fun r =>
    let absY := r.y.abs
    let absY := if absY.isnan then EF.inf else absY
    if absY.gt (EF.fin (diameter / 2)) then { r with tan_theta := EF.nan } else r)

/-- Claim-shaped description of one `block`-ed row, used in the amended C6
statement: a row whose `y` is a set (finite) value within the half-diameter
is untouched; every other row has exactly its `tan_theta` replaced by the
`nan` sentinel, its positional fields `x`, `y` staying as they were. -/
def Aperture.blockRowDescribed (diameter : ℚ) (r : Ray) : Ray :=
  match r.y with
  | EF.fin q => if |q| ≤ diameter / 2 then r else { r with tan_theta := EF.nan }
  | EF.inf => { r with tan_theta := EF.nan }
  | EF.ninf => { r with tan_theta := EF.nan }
  | EF.nan => { r with tan_theta := EF.nan }

/-- A point of the plane with extended coordinates. -/
structure EPt where
  x : EF
  y : EF
deriving DecidableEq, Repr

/-- One cell of the vectorised pairwise crossing computation of
`TracedRays.ray_crossings` (rays.py, lines 153-177): for one stage interval
and one ray pair, the first segment runs from `a` to `b`, the second from
`c` to `d`.  With `v0 = b - a`, `v1 = d - c`, `p = c - a`, the solved
parameter of the first segment is
`l = (v1.x * p.y - v1.y * p.x) / (v0.y * v1.x - v0.x * v1.y)`;
the validity mask is `(l < 1) & (l > 0)`, invalid entries of `l` and of the
all-ones array `k` become `nan`, and the crossing is `l * v0 + a * k`. -/
def ray_crossing_cell (a b c d : EPt) : EPt :=
  let v0 : EPt := ⟨b.x.sub a.x, b.y.sub a.y⟩
  let v1 : EPt := ⟨d.x.sub c.x, d.y.sub c.y⟩
  let p : EPt := ⟨c.x.sub a.x, c.y.sub a.y⟩
  let l := ((v1.x.mul p.y).sub (v1.y.mul p.x)).div
      ((v0.y.mul v1.x).sub (v0.x.mul v1.y))
  let valid := (l.lt (EF.fin 1)) && ((EF.fin 0).lt l)
  let lm := if valid then l else EF.nan
  let k := if valid then EF.fin 1 else EF.nan
  ⟨(lm.mul v0.x).add (a.x.mul k), (lm.mul v0.y).add (a.y.mul k)⟩

/-- Modelled from the spec: the solved intersection parameter of the
*second* segment of a pair ("the solved parameter ... for *both* segments"),
which rays.py never computes.  For finite segments from `(ax, ay)` to
`(bx, by0)` and from `(cx, cy)` to `(dx, dy)` it solves
`a + l * v0 = c + mu * v1` for `mu`. -/
def second_segment_param (ax ay bx by0 cx cy dx dy : ℚ) : ℚ :=
  ((cx - ax) * (by0 - ay) - (cy - ay) * (bx - ax)) /
    ((bx - ax) * (dy - cy) - (by0 - ay) * (dx - cx))

/-- The filter loop body shared by `image_crossings`/`color_crossings`
(rays.py, `RayCrossings1D`): the mask entry of one crossing with from-row
properties `(gf, wf)` and to-row properties `(gt, wt)` is the disjunction
over the rows `(g, w)` of `properties_from` of
`(wf == w) & (wt == w) & (gf == g) & (gt != g)` (IEEE `==` semantics).
Iterating over all rows instead of `np.unique` rows leaves the disjunction
unchanged, since duplicates do not affect an `any`. -/
def color_crossings_mask (propsFrom propsTo : List (EF × EF)) : List Bool :=
  (propsFrom.zip propsTo).map (fun q =>
    propsFrom.any (fun gw =>
      q.1.2.feq gw.2 && q.2.2.feq gw.2 && q.1.1.feq gw.1 && !(q.2.1.feq gw.1)))

/-- Claim-shaped mask for C1, following the spec's words: a crossing is kept
exactly when its two rays share the same group value but have differing
wavelength values. -/
def color_crossings_mask_claimed (propsFrom propsTo : List (EF × EF)) : List Bool :=
  (propsFrom.zip propsTo).map (fun q => q.1.1.feq q.2.1 && !(q.1.2.feq q.2.2))

noncomputable section RealLayer

open Real

/-- Degrees to radians, as written throughout the source
(`theta * np.pi / 180.`). -/
noncomputable def rad (theta : ℝ) : ℝ := theta * π / 180

/-- Point transform into the element frame (elements/base.py,
`points_to_object_frame_of_reference`): translate by `-origin`, then, unless
`theta == 0`, rotate by `rotation_matrix(-theta)`. -/
noncomputable def points_to_object_frame (theta ox oy px py : ℝ) : ℝ × ℝ :=
  let q := (px - ox, py - oy)
  if theta = 0 then q
  else (Real.cos (rad theta) * q.1 + Real.sin (rad theta) * q.2,
        -Real.sin (rad theta) * q.1 + Real.cos (rad theta) * q.2)

/-- Point transform back to the global frame (elements/base.py,
`points_to_global_frame_of_reference`): unless `theta == 0`, rotate by
`rotation_matrix(theta)`, then translate by `+origin`. -/
noncomputable def points_to_global_frame (theta ox oy px py : ℝ) : ℝ × ℝ :=
  let q :=
    if theta = 0 then (px, py)
    else (Real.cos (rad theta) * px - Real.sin (rad theta) * py,
          Real.sin (rad theta) * px + Real.cos (rad theta) * py)
  (q.1 + ox, q.2 + oy)

/-- Direction update of `to_element_frame_of_reference` (elements/base.py,
line 88): `tan_theta = (tan_theta - tan(theta)) / (1 + tan(theta) * tan_theta)`. -/
noncomputable def tan_to_element_frame (theta t : ℝ) : ℝ :=
  (t - Real.tan (rad theta)) / (1 + Real.tan (rad theta) * t)

/-- Direction update of `to_global_frame_of_reference` (elements/base.py,
line 111): `tan_theta = (tan(theta) + tan_theta) / (1 - tan(theta) * tan_theta)`. -/
noncomputable def tan_to_global_frame (theta t : ℝ) : ℝ :=
  (Real.tan (rad theta) + t) / (1 - Real.tan (rad theta) * t)

/-- The wrap of an angle in degrees into `[0, 360)` used by
`to_element_frame_of_reference` and `point_source_rays`:
`m = floor(a / 360); a - m * 360`. -/
noncomputable def wrap360 (a : ℝ) : ℝ := a - (⌊a / 360⌋ : ℝ) * 360

/-- Final re-encoding of the `forward` column from an absolute heading in
degrees (elements/base.py, lines 94 and 107):
`((a < 90) | (a > 270)).astype(float) - 0.5`.  The `nan` heading is first
replaced by `90`, so it lands in the `else` branch. -/
noncomputable def forward_from_angle (a : ℝ) : ℝ :=
  (if a < 90 ∨ 270 < a then (1 : ℝ) else 0) - 0.5

/-- Absolute heading in degrees reconstructed from `tan_theta` and the sign
of the current `forward` value (elements/base.py, lines 83 and 104):
`arctan(tan_theta) * 180 / pi + (forward < 0) * 180`. -/
noncomputable def heading_deg (t fwd : ℝ) : ℝ :=
  Real.arctan t * 180 / π + (if fwd < 0 then (1 : ℝ) else 0) * 180

/-- New `forward` value produced by `to_element_frame_of_reference`
(elements/base.py, lines 83-94): subtract `theta` from the heading, wrap
into `[0, 360)`, then re-encode. -/
noncomputable def forward_to_element_frame (theta t fwd : ℝ) : ℝ :=
  forward_from_angle (wrap360 (heading_deg t fwd - theta))

/-- New `forward` value produced by `to_global_frame_of_reference`
(elements/base.py, lines 104-107): add `theta` to the heading (no wrap) and
re-encode. -/
noncomputable def forward_to_global_frame (theta t fwd : ℝ) : ℝ :=
  forward_from_angle (heading_deg t fwd + theta)

/-- The `forward` value assigned at ray-fan creation (rays.py,
`point_source_rays`, lines 339-341): wrap the emission angle into
`[0, 360)` and store `((a < 90) | (a > 270)).astype(float)`. -/
noncomputable def point_source_forward (angle : ℝ) : ℝ :=
  if wrap360 angle < 90 ∨ 270 < wrap360 angle then 1 else 0

/-- Origin and orientation of a `RotateObject` (elements/base.py). -/
structure Obj where
  ox : ℝ
  oy : ℝ
  theta : ℝ

/-- Row-vector product `v . rotation_matrix(-theta)` as performed by
`np.dot(diff, Rmat)` in utils.py, `place_relative_to`; with
`rotation_matrix(-theta) = [[c, s], [-s, c]]` this sends `(v1, v2)` to
`(v1 * c - v2 * s, v1 * s + v2 * c)`. -/
noncomputable def row_rot (theta v1 v2 : ℝ) : ℝ × ℝ :=
  (v1 * Real.cos (rad theta) - v2 * Real.sin (rad theta),
   v1 * Real.sin (rad theta) + v2 * Real.cos (rad theta))

/-- Relative placement (utils.py, `place_relative_to`).  `offset` is bound
to the reference element's origin array itself, so the in-place
`offset += diff` also changes the reference element; the function therefore
returns the new states of *both* elements, reference first. -/
noncomputable def place_relative_to (ref el : Obj) (distance theta : ℝ) : Obj × Obj :=
  let diff := if theta = 0 then ((distance, 0) : ℝ × ℝ) else row_rot theta distance 0
  let elo := if theta = 0 then ((el.ox, el.oy) : ℝ × ℝ) else row_rot theta el.ox el.oy
  let offset := ((ref.ox + diff.1, ref.oy + diff.2) : ℝ × ℝ)
  (⟨offset.1, offset.2, ref.theta⟩,
   ⟨elo.1 + offset.1, elo.2 + offset.2, el.theta + theta⟩)

/-- Claim-shaped placement for C7, following the spec's words: only the new
element changes; its origin becomes the previous origin plus the offset
vector `(distance, 0)` rotated by the *previous element's* orientation, and
the angle is added to its orientation. -/
noncomputable def place_relative_to_claimed (ref el : Obj) (distance theta : ℝ) : Obj × Obj :=
  (ref,
   ⟨ref.ox + distance * Real.cos (rad ref.theta),
    ref.oy + distance * Real.sin (rad ref.theta),
    el.theta + theta⟩)

/-- The `a == 0` branch of `ParabolicMirror.intersection_with`
(elements/parabolic_mirror.py, line 48): `x = y * y / (4 * f)`. -/
noncomputable def parabolic_x_zero (f y : ℝ) : ℝ := y * y / (4 * f)

/-- The generic branch of `ParabolicMirror.intersection_with`
(elements/parabolic_mirror.py, line 44):
`x = (2 * sqrt(f * (f - a * y)) + a * y - 2 * f) / a ** 2`. -/
noncomputable def parabolic_x_quad (f a y : ℝ) : ℝ :=
  (2 * Real.sqrt (f * (f - a * y)) + a * y - 2 * f) / a ^ 2

/-- Full `ParabolicMirror.intersection_with` for one ray with local
position `y` and slope `a` (elements/parabolic_mirror.py, lines 40-61):
solve for `x` by branch, recompute `y`, clamp to the rim plane
`x_blocker = (diameter/2)^2 / (4 f)` when the transverse coordinate exceeds
the half-diameter, and store `(-x, y)`. -/
noncomputable def intersection_with (f diameter y a : ℝ) : ℝ × ℝ :=
  let x := if a = 0 then parabolic_x_zero f y else parabolic_x_quad f a y
  let y1 := y - a * x
  let xBlocker := 1 / (4 * f) * (diameter / 2) ^ 2
  if diameter / 2 < |y1| then (-(-xBlocker), y - a * (-xBlocker)) else (-x, y1)

/-- A ray row over the reals, wavelength optionally unset (`None` models
the `nan` wavelength tag before a dispersive element resolves it). -/
structure RowR where
  x : ℝ
  y : ℝ
  tan_theta : ℝ
  forward : ℝ
  group : ℝ
  wavelength : Option ℝ

/-- The tangent update of `DiffractionGrating.transform_rays`
(elements/diffraction_grating.py, lines 49-50), note the doubled `np.sin`:
`tan(arcsin(sin(sin(arctan(t))) - interference * wavelength / grating / 1000))`. -/
noncomputable def grating_tan_update (interference grating w t : ℝ) : ℝ :=
  Real.tan (Real.arcsin
    (Real.sin (Real.sin (Real.arctan t)) - interference * w / grating / 1000))

/-- Claim-shaped tangent update for C2, following the spec's words (and the
source's own `diffraction_angle_for` helper): a single sine,
`tan(arcsin(sin(arctan(t)) - m * (w / 1000) / d))`. -/
noncomputable def grating_tan_update_claimed (m d w t : ℝ) : ℝ :=
  Real.tan (Real.arcsin (Real.sin (Real.arctan t) - m * (w / 1000) / d))

/-- Wavelength resolution and splitting of `DiffractionGrating.transform_rays`
(elements/diffraction_grating.py, lines 39-47): if any row has an unset
wavelength, assign the first default wavelength to those rows in place,
then for each remaining default wavelength append a copy of the whole
originally-unset subset carrying that wavelength. -/
def resolve_wavelengths (w0 : ℝ) (ws : List ℝ) (rows : List RowR) : List RowR :=
  if rows.any (fun r => r.wavelength.isNone) then
    let assigned := rows.map (fun r =>
      if r.wavelength.isNone then { r with wavelength := some w0 } else r)
    let originals := (rows.filter (fun r => r.wavelength.isNone)).map
      (fun r => { r with wavelength := some w0 })
    assigned ++ ws.flatMap (fun w => originals.map (fun r => { r with wavelength := some w }))
  else rows

/-- Full `DiffractionGrating.transform_rays` (elements/diffraction_grating.py,
lines 37-52): wavelength resolution/splitting, then the tangent update for
all rows.  After resolution every wavelength is set whenever the grating
declares at least one default, so the `getD` default is never read. -/
noncomputable def DiffractionGrating.transform_rays (interference grating w0 : ℝ)
    (ws : List ℝ) (rows : List RowR) : List RowR :=
  (resolve_wavelengths w0 ws rows).map (fun r =>
    { r with tan_theta := grating_tan_update interference grating (r.wavelength.getD 0) r.tan_theta })

end RealLayer

/-! ### Helper lemmas -/

/-- IEEE equality holds exactly between identical non-`nan` values. -/
theorem EF.feq_eq_true_iff {a b : EF} : a.feq b = true ↔ a = b ∧ a ≠ EF.nan := by
  cases a <;> cases b <;> simp [EF.feq]

/-- The `nan` test is false exactly on non-`nan` values. -/
theorem EF.isnan_eq_false_iff {a : EF} : a.isnan = false ↔ a ≠ EF.nan := by
  cases a <;> simp [EF.isnan]

/-- Subtraction of finite values is finite. -/
theorem EF.sub_fin (p q : ℚ) : (EF.fin p).sub (EF.fin q) = EF.fin (p - q) := by
  simp [EF.sub, EF.add, EF.neg, sub_eq_add_neg]

/-- Addition of finite values is finite. -/
theorem EF.add_fin (p q : ℚ) : (EF.fin p).add (EF.fin q) = EF.fin (p + q) := rfl

/-- Multiplication of finite values is finite. -/
theorem EF.mul_fin (p q : ℚ) : (EF.fin p).mul (EF.fin q) = EF.fin (p * q) := rfl

/-- Division of finite values: a zero divisor yields a signed infinity or
`nan` by the numerator's sign, otherwise the finite quotient. -/
theorem EF.div_fin (p q : ℚ) : (EF.fin p).div (EF.fin q) =
    (if q = 0 then (if 0 < p then EF.inf else if p < 0 then EF.ninf else EF.nan)
     else EF.fin (p / q)) := rfl

/-- Comparison of finite values is the rational comparison. -/
theorem EF.lt_fin (p q : ℚ) : (EF.fin p).lt (EF.fin q) = decide (p < q) := rfl

/-- Nothing compares below `nan`. -/
theorem EF.lt_nan_left (b : EF) : EF.lt EF.nan b = false := by cases b <;> rfl

/-- Nothing compares above `nan`. -/
theorem EF.lt_nan_right (a : EF) : EF.lt a EF.nan = false := by cases a <;> rfl

/-- Nothing is greater than `inf`. -/
theorem EF.lt_inf_left (b : EF) : EF.lt EF.inf b = false := by cases b <;> rfl

/-- Every finite value is below `inf`. -/
theorem EF.fin_lt_inf (p : ℚ) : EF.lt (EF.fin p) EF.inf = true := rfl

/-- Every finite value is above `ninf`. -/
theorem EF.ninf_lt_fin (q : ℚ) : EF.lt EF.ninf (EF.fin q) = true := rfl

/-- Nothing is below `ninf`. -/
theorem EF.lt_ninf_right (a : EF) : EF.lt a EF.ninf = false := by cases a <;> rfl

/-- `nan` poisons multiplication on the left. -/
theorem EF.nan_mul (b : EF) : EF.mul EF.nan b = EF.nan := by cases b <;> rfl

/-- `nan` poisons multiplication on the right. -/
theorem EF.mul_nan (a : EF) : EF.mul a EF.nan = EF.nan := by cases a <;> rfl

/-- `nan` poisons addition on the left. -/
theorem EF.nan_add (b : EF) : EF.add EF.nan b = EF.nan := by cases b <;> rfl

/-- `nan` poisons addition on the right. -/
theorem EF.add_nan (a : EF) : EF.add a EF.nan = EF.nan := by cases a <;> rfl

/-- Flat-mapping a map of a fixed list multiplies lengths. -/
theorem length_flatMap_map {α β γ : Type} (ws : List α) (l : List β) (g : α → β → γ) :
    (ws.flatMap (fun w => l.map (g w))).length = ws.length * l.length := by
  induction ws with
  | nil => simp
  | cons w ws ih => simp [ih, Nat.succ_mul, Nat.add_comm]

open Real

/-! ### Claim theorems -/

/-- C1, counterexample.  A crossing whose rays share the group (both `1`)
but differ in wavelength (`2` vs `3`) is *dropped* by the
`color_crossings` mask, while a crossing whose rays share the wavelength
(`5`) but differ in group (`1` vs `2`) is *kept* — the exact opposite of
the claim's filter, which the claim-shaped mask computes. -/
theorem color_crossings_counterexample :
    color_crossings_mask [(EF.fin 1, EF.fin 2)] [(EF.fin 1, EF.fin 3)] = [false] ∧
    color_crossings_mask_claimed [(EF.fin 1, EF.fin 2)] [(EF.fin 1, EF.fin 3)] = [true] ∧
    color_crossings_mask [(EF.fin 1, EF.fin 5)] [(EF.fin 2, EF.fin 5)] = [true] ∧
    color_crossings_mask_claimed [(EF.fin 1, EF.fin 5)] [(EF.fin 2, EF.fin 5)] = [false] := by
  decide

/-- C1, amended.  The `color_crossings` filter keeps exactly the crossings
whose from-row has a set (non-`nan`) wavelength and group, whose to-row
wavelength equals the from-row wavelength (IEEE equality), and whose to-row
group differs from the from-row group (IEEE inequality, so an unset to-row
group counts as differing): pairs sharing wavelength but differing in
group, not the other way around. -/
theorem color_crossings_described (propsFrom propsTo : List (EF × EF)) :
    color_crossings_mask propsFrom propsTo =
      (propsFrom.zip propsTo).map (fun q =>
        !q.1.2.isnan && !q.1.1.isnan && q.2.2.feq q.1.2 && !(q.2.1.feq q.1.1)) := by
  unfold color_crossings_mask
  apply List.map_congr_left
  intro q hq
  have hmem : q.1 ∈ propsFrom := (List.of_mem_zip hq).1
  rcases q with ⟨⟨g1, w1⟩, g2, w2⟩
  simp only at hmem ⊢
  rw [Bool.eq_iff_iff]
  constructor
  · -- some from-row matches: it must carry exactly the values (g1, w1)
    intro h
    obtain ⟨⟨g, w⟩, -, hcond⟩ := List.any_eq_true.mp h
    simp only [Bool.and_eq_true, Bool.not_eq_true'] at hcond
    obtain ⟨⟨⟨hww, hw2w⟩, hgg⟩, hg2g⟩ := hcond
    obtain ⟨rfl, hw1'⟩ := EF.feq_eq_true_iff.mp hww
    obtain ⟨rfl, hg1'⟩ := EF.feq_eq_true_iff.mp hgg
    simp [hw2w, hg2g, EF.isnan_eq_false_iff.mpr hw1', EF.isnan_eq_false_iff.mpr hg1']
  · -- conversely the from-row itself witnesses the disjunction
    intro h
    simp only [Bool.and_eq_true, Bool.not_eq_true', Bool.not_eq_true] at h
    obtain ⟨⟨⟨hw1, hg1⟩, hw2w⟩, hg2g⟩ := h
    have hw1' : w1 ≠ EF.nan := EF.isnan_eq_false_iff.mp hw1
    have hg1' : g1 ≠ EF.nan := EF.isnan_eq_false_iff.mp hg1
    refine List.any_eq_true.mpr ⟨(g1, w1), hmem, ?_⟩
    simp only [Bool.and_eq_true, Bool.not_eq_true']
    exact ⟨⟨⟨EF.feq_eq_true_iff.mpr ⟨rfl, hw1'⟩, hw2w⟩,
      EF.feq_eq_true_iff.mpr ⟨rfl, hg1'⟩⟩, hg2g⟩

/-- C3, counterexample.  The segment from `(0,0)` to `(2,0)` and the segment
from `(1,-3)` to `(1,-1)` do not intersect: the second segment's solved
parameter is `3/2`, outside `(0,1)`.  The analyzer nevertheless reports the
valid crossing `(1, 0)`, because it only checks the first segment's
parameter (`1/2`). -/
theorem ray_crossing_counterexample :
    ray_crossing_cell ⟨EF.fin 0, EF.fin 0⟩ ⟨EF.fin 2, EF.fin 0⟩
        ⟨EF.fin 1, EF.fin (-3)⟩ ⟨EF.fin 1, EF.fin (-1)⟩ = ⟨EF.fin 1, EF.fin 0⟩ ∧
    second_segment_param 0 0 2 0 1 (-3) 1 (-1) = 3 / 2 ∧
    ¬ ((0 : ℚ) < 3 / 2 ∧ (3 : ℚ) / 2 < 1) := by
  refine ⟨?_, by norm_num [second_segment_param], by norm_num⟩
  norm_num [ray_crossing_cell, EF.sub, EF.add, EF.neg, EF.mul, EF.div, EF.lt]

/-- C3, amended.  For finite segment endpoints, the crossing cell is a set
(finite) point exactly when the determinant is nonzero and the *first*
segment's solved parameter `num/det` lies strictly inside `(0,1)` — the
second segment's parameter is never checked; endpoint hits (parameter `0`
or `1`) and degenerate determinants give the `nan` sentinel in both
coordinates, never an infinity. -/
theorem ray_crossing_cell_described (ax ay bx by0 cx cy dx dy : ℚ) :
    ray_crossing_cell ⟨EF.fin ax, EF.fin ay⟩ ⟨EF.fin bx, EF.fin by0⟩
        ⟨EF.fin cx, EF.fin cy⟩ ⟨EF.fin dx, EF.fin dy⟩ =
      (if ((by0 - ay) * (dx - cx) - (bx - ax) * (dy - cy) ≠ 0) ∧
          0 < ((dx - cx) * (cy - ay) - (dy - cy) * (cx - ax)) /
              ((by0 - ay) * (dx - cx) - (bx - ax) * (dy - cy)) ∧
          ((dx - cx) * (cy - ay) - (dy - cy) * (cx - ax)) /
              ((by0 - ay) * (dx - cx) - (bx - ax) * (dy - cy)) < 1 then
        ⟨EF.fin (((dx - cx) * (cy - ay) - (dy - cy) * (cx - ax)) /
              ((by0 - ay) * (dx - cx) - (bx - ax) * (dy - cy)) * (bx - ax) + ax * 1),
         EF.fin (((dx - cx) * (cy - ay) - (dy - cy) * (cx - ax)) /
              ((by0 - ay) * (dx - cx) - (bx - ax) * (dy - cy)) * (by0 - ay) + ay * 1)⟩
      else ⟨EF.nan, EF.nan⟩) := by
  unfold ray_crossing_cell
  simp only [EF.sub_fin, EF.mul_fin, EF.add_fin]
  set num := (dx - cx) * (cy - ay) - (dy - cy) * (cx - ax) with hnum
  set det := (by0 - ay) * (dx - cx) - (bx - ax) * (dy - cy) with hdet
  rw [EF.div_fin]
  by_cases hd : det = 0
  · -- degenerate determinant: the quotient is an infinity or nan,
    -- the validity mask is false, and the crossing is the nan sentinel
    have hcond : ¬ (det ≠ 0 ∧ 0 < num / det ∧ num / det < 1) := by
      intro h; exact h.1 hd
    rw [if_neg hcond, if_pos hd]
    rcases lt_trichotomy num 0 with hn | hn | hn
    · rw [if_neg (not_lt.mpr (le_of_lt hn)), if_pos hn]
      simp [EF.lt_ninf_right, EF.ninf_lt_fin, EF.nan_mul, EF.mul_nan, EF.nan_add, EF.add_nan]
    · simp only [hn]
      norm_num [EF.lt_nan_left, EF.lt_nan_right, EF.nan_mul, EF.mul_nan, EF.nan_add,
        EF.add_nan]
    · rw [if_pos hn]
      simp [EF.lt_inf_left, EF.fin_lt_inf, EF.nan_mul, EF.mul_nan, EF.nan_add, EF.add_nan]
  · -- regular determinant: the quotient is finite and the mask decides
    rw [if_neg hd]
    by_cases hio : 0 < num / det ∧ num / det < 1
    · simp [EF.lt_fin, EF.mul_fin, EF.add_fin, hio.1, hio.2, hd]
    · have hcond2 : ¬ (det ≠ 0 ∧ 0 < num / det ∧ num / det < 1) := by tauto
      rcases not_and_or.mp hio with h1 | h2
      · simp [EF.lt_fin, h1, hd, hcond2, EF.nan_mul, EF.mul_nan, EF.nan_add, EF.add_nan]
      · simp [EF.lt_fin, h2, hd, hcond2, EF.nan_mul, EF.mul_nan, EF.nan_add, EF.add_nan]

/-- C4, code-bug witness.  A ray exactly at the target plane (`dx = 0`)
whose `forward` indicator is positive is invalidated by `propagate`: with
`dx = 0` the mask `xor(dx > 0, forward > 0)` is true, so its `y` becomes
the `nan` sentinel, although the spec requires `dx == 0` never to trigger
invalidation.  For contrast, the same ray with `forward = 0` (the
creation-time "backward" encoding) is kept intact: at `dx = 0` the outcome
depends on the forward indicator, and it is the forward-moving ray — the
one the spec says must survive — that is lost. -/
theorem propagate_dx_zero_invalidates :
    (EF.fin 3).sub (EF.fin 3) = EF.fin 0 ∧
    propagate [⟨EF.fin 3, EF.fin 5, EF.fin 2, EF.fin 1, EF.fin 0, EF.nan⟩] (EF.fin 3) =
      [⟨EF.fin 3, EF.nan, EF.fin 2, EF.fin 1, EF.fin 0, EF.nan⟩] ∧
    propagate [⟨EF.fin 3, EF.fin 5, EF.fin 2, EF.fin 0, EF.fin 0, EF.nan⟩] (EF.fin 3) =
      [⟨EF.fin 3, EF.fin 5, EF.fin 2, EF.fin 0, EF.fin 0, EF.nan⟩] := by
  refine ⟨?_, ?_, ?_⟩
  · norm_num [EF.sub, EF.add, EF.neg]
  · norm_num [propagate, EF.sub, EF.add, EF.neg, EF.mul, EF.gt, EF.lt, EF.isnan]
  · norm_num [propagate, EF.sub, EF.add, EF.neg, EF.mul, EF.gt, EF.lt, EF.isnan]

/-- C6, counterexample.  Blocking (diameter `2`) a ray with `y = 3` (so
`|y| > 1`) sets its `tan_theta` — column 2 — to the `nan` sentinel while
its positional fields keep the set values `x = 5`, `y = 3`; the claim's
"positional fields become the unset NaN sentinel" is false. -/
theorem aperture_block_counterexample :
    Aperture.block 2 [⟨EF.fin 5, EF.fin 3, EF.fin 7, EF.fin 1, EF.fin 0, EF.nan⟩] =
      [⟨EF.fin 5, EF.fin 3, EF.nan, EF.fin 1, EF.fin 0, EF.nan⟩] ∧
    (EF.fin 5).isnan = false ∧ (EF.fin 3).isnan = false ∧ (2 : ℚ) / 2 < |(3 : ℚ)| := by
  refine ⟨?_, rfl, rfl, by norm_num⟩
  norm_num [Aperture.block, EF.abs, EF.isnan, EF.gt, EF.lt]

/-- C6, amended.  `block` preserves the row count and maps each row as
follows: a row whose `y` is a set finite value with `|y| ≤ diameter/2` is
completely unchanged; every other row (finite `y` beyond the half-diameter,
infinite `y`, or unset `y`) has exactly its `tan_theta` field replaced by
the `nan` sentinel — its positional fields are untouched. -/
theorem aperture_block_described (diameter : ℚ) (rows : List Ray) :
    Aperture.block diameter rows = rows.map (Aperture.blockRowDescribed diameter) ∧
    (Aperture.block diameter rows).length = rows.length := by
  constructor
  · unfold Aperture.block
    apply List.map_congr_left
    intro r _
    cases hy : r.y with
    | nan => simp [Aperture.blockRowDescribed, hy, EF.abs, EF.isnan, EF.gt, EF.lt]
    | inf => simp [Aperture.blockRowDescribed, hy, EF.abs, EF.isnan, EF.gt, EF.lt]
    | ninf => simp [Aperture.blockRowDescribed, hy, EF.abs, EF.isnan, EF.gt, EF.lt]
    | fin q =>
      by_cases hq : |q| ≤ diameter / 2
      · simp [Aperture.blockRowDescribed, hy, EF.abs, EF.isnan, EF.gt, EF.lt,
          not_lt.mpr hq, hq]
      · simp [Aperture.blockRowDescribed, hy, EF.abs, EF.isnan, EF.gt, EF.lt,
          lt_of_not_le hq, hq]
  · unfold Aperture.block
    simp

/-- C7, counterexample.  Reference element at the origin with orientation
`90` degrees, new element at the origin, placed at distance `1` with angle
argument `0`.  The claim predicts the reference element's origin stays
`(0,0)` and the new element lands at the offset rotated by the reference
orientation, `(0,1)`.  The code instead shifts the *reference* origin to
`(1,0)` (the `offset` alias is the reference's own origin array) and puts
the new element at `(1,0)`: the offset is rotated by the angle argument,
not by the reference's orientation. -/
theorem place_relative_to_counterexample :
    (place_relative_to ⟨0, 0, 90⟩ ⟨0, 0, 0⟩ 1 0).1.ox = 1 ∧
    (⟨0, 0, 90⟩ : Obj).ox = 0 ∧
    (place_relative_to ⟨0, 0, 90⟩ ⟨0, 0, 0⟩ 1 0).2.ox = 1 ∧
    (place_relative_to ⟨0, 0, 90⟩ ⟨0, 0, 0⟩ 1 0).2.oy = 0 ∧
    (place_relative_to_claimed ⟨0, 0, 90⟩ ⟨0, 0, 0⟩ 1 0).1.ox = 0 ∧
    (place_relative_to_claimed ⟨0, 0, 90⟩ ⟨0, 0, 0⟩ 1 0).2.ox = 0 ∧
    (place_relative_to_claimed ⟨0, 0, 90⟩ ⟨0, 0, 0⟩ 1 0).2.oy = 1 := by
  have hrad : rad 90 = π / 2 := by unfold rad; ring
  have hcos : Real.cos (rad 90) = 0 := by rw [hrad, Real.cos_pi_div_two]
  have hsin : Real.sin (rad 90) = 1 := by rw [hrad, Real.sin_pi_div_two]
  refine ⟨?_, rfl, ?_, ?_, ?_, ?_, ?_⟩ <;>
    simp [place_relative_to, place_relative_to_claimed, hcos, hsin]

/-- C7, amended.  `place_relative_to` rotates both the offset `(distance,0)`
and the new element's own origin by the *angle argument* (the `theta == 0`
shortcut coincides with this closed form, since `cos 0 = 1`, `sin 0 = 0`);
it adds the rotated offset to the reference element's origin *in place*
(aliasing side effect), leaves the reference's `theta` unchanged, sets the
new element's origin to its rotated origin plus the shifted reference
origin, and adds the angle to the new element's orientation. -/
theorem place_relative_to_described (ref el : Obj) (distance theta : ℝ) :
    place_relative_to ref el distance theta =
      (⟨ref.ox + distance * Real.cos (rad theta),
        ref.oy + distance * Real.sin (rad theta), ref.theta⟩,
       ⟨(el.ox * Real.cos (rad theta) - el.oy * Real.sin (rad theta)) +
          (ref.ox + distance * Real.cos (rad theta)),
        (el.ox * Real.sin (rad theta) + el.oy * Real.cos (rad theta)) +
          (ref.oy + distance * Real.sin (rad theta)),
        el.theta + theta⟩) := by
  unfold place_relative_to row_rot
  by_cases h : theta = 0
  · subst h
    have hc : Real.cos (rad 0) = 1 := by
      unfold rad; rw [zero_mul, zero_div, Real.cos_zero]
    have hs : Real.sin (rad 0) = 0 := by
      unfold rad; rw [zero_mul, zero_div, Real.sin_zero]
    simp [hc, hs, Prod.ext_iff, Obj.mk.injEq]
  · simp [h, Prod.ext_iff, Obj.mk.injEq]

/-- C10.  After either frame transform the `forward` column holds exactly
`+0.5` or `-0.5`; the `nan`-heading substitute value `90` is re-encoded
deterministically as `-0.5`; and at ray creation `point_source_rays`
encodes `forward` as `0.0` or `1.0` — so the encoding changes domain on the
first frame transform and only its sign is stable. -/
theorem forward_sign_encoding :
    (∀ theta t fwd : ℝ, forward_to_element_frame theta t fwd = 0.5 ∨
        forward_to_element_frame theta t fwd = -0.5) ∧
    (∀ theta t fwd : ℝ, forward_to_global_frame theta t fwd = 0.5 ∨
        forward_to_global_frame theta t fwd = -0.5) ∧
    forward_from_angle 90 = -0.5 ∧
    (∀ a : ℝ, point_source_forward a = 0 ∨ point_source_forward a = 1) := by
  refine ⟨?_, ?_, ?_, ?_⟩
  · intro theta t fwd
    unfold forward_to_element_frame forward_from_angle
    by_cases h : wrap360 (heading_deg t fwd - theta) < 90 ∨
        270 < wrap360 (heading_deg t fwd - theta)
    · left; rw [if_pos h]; norm_num
    · right; rw [if_neg h]; norm_num
  · intro theta t fwd
    unfold forward_to_global_frame forward_from_angle
    by_cases h : heading_deg t fwd + theta < 90 ∨ 270 < heading_deg t fwd + theta
    · left; rw [if_pos h]; norm_num
    · right; rw [if_neg h]; norm_num
  · unfold forward_from_angle
    rw [if_neg (by norm_num)]
    norm_num
  · intro a
    unfold point_source_forward
    by_cases h : wrap360 a < 90 ∨ 270 < wrap360 a
    · right; rw [if_pos h]
    · left; rw [if_neg h]

/-- C2, code-bug witness.  At normal incidence (`tan_theta = 0`) the
source's doubled-sine update agrees with the claimed grating equation, but
at `tan_theta = 1` (a 45-degree ray) with order `m = 1`, pitch `d = 1`
micrometer and wavelength `532` nm the source computes
`tan(asin(sin(sin(atan 1)) - 0.532))`, strictly less than — and hence
different from — the claimed `tan(asin(sin(atan 1) - 0.532))`; the single
sine is also what the source's own `diffraction_angle_for` helper uses. -/
theorem grating_equation_double_sine_bug :
    grating_tan_update 1 1 532 0 = grating_tan_update_claimed 1 1 532 0 ∧
    grating_tan_update 1 1 532 1 < grating_tan_update_claimed 1 1 532 1 ∧
    grating_tan_update 1 1 532 1 ≠ grating_tan_update_claimed 1 1 532 1 := by
  have hs2 : Real.sqrt 2 ^ 2 = 2 := Real.sq_sqrt (by norm_num)
  have hs0 : 0 ≤ Real.sqrt 2 := Real.sqrt_nonneg 2
  have h1s : 1 < Real.sqrt 2 := by nlinarith
  have hsl2 : Real.sqrt 2 < 2 := by nlinarith
  have hhalf_pos : 0 < Real.sqrt 2 / 2 := by linarith
  have hhalf_lt1 : Real.sqrt 2 / 2 < 1 := by linarith
  have hpi : (3 : ℝ) < π := Real.pi_gt_three
  have hsin_lt : Real.sin (Real.sqrt 2 / 2) < Real.sqrt 2 / 2 := Real.sin_lt hhalf_pos
  have hsin_pos : 0 < Real.sin (Real.sqrt 2 / 2) :=
    Real.sin_pos_of_pos_of_lt_pi hhalf_pos (by linarith)
  have hsin_le : Real.sin (Real.sqrt 2 / 2) ≤ 1 := Real.sin_le_one _
  have e1 : grating_tan_update 1 1 532 1 =
      Real.tan (Real.arcsin (Real.sin (Real.sqrt 2 / 2) - 532 / 1000)) := by
    unfold grating_tan_update
    rw [Real.arctan_one, Real.sin_pi_div_four]
    norm_num
  have e2 : grating_tan_update_claimed 1 1 532 1 =
      Real.tan (Real.arcsin (Real.sqrt 2 / 2 - 532 / 1000)) := by
    unfold grating_tan_update_claimed
    rw [Real.arctan_one, Real.sin_pi_div_four]
    norm_num
  have hA1 : (-1 : ℝ) ≤ Real.sin (Real.sqrt 2 / 2) - 532 / 1000 := by linarith
  have hA2 : Real.sin (Real.sqrt 2 / 2) - 532 / 1000 ≤ 1 := by linarith
  have hB1 : (-1 : ℝ) ≤ Real.sqrt 2 / 2 - 532 / 1000 := by linarith
  have hB2 : Real.sqrt 2 / 2 - 532 / 1000 ≤ 1 := by linarith
  have harc : Real.arcsin (Real.sin (Real.sqrt 2 / 2) - 532 / 1000) <
      Real.arcsin (Real.sqrt 2 / 2 - 532 / 1000) :=
    Real.strictMonoOn_arcsin ⟨hA1, hA2⟩ ⟨hB1, hB2⟩ (by linarith)
  have htan : Real.tan (Real.arcsin (Real.sin (Real.sqrt 2 / 2) - 532 / 1000)) <
      Real.tan (Real.arcsin (Real.sqrt 2 / 2 - 532 / 1000)) := by
    apply Real.tan_lt_tan_of_lt_of_lt_pi_div_two
    · exact Real.neg_pi_div_two_lt_arcsin.mpr (by linarith)
    · exact Real.arcsin_lt_pi_div_two.mpr (by linarith)
    · exact harc
  refine ⟨?_, ?_, ?_⟩
  · unfold grating_tan_update grating_tan_update_claimed
    rw [Real.arctan_zero, Real.sin_zero, Real.sin_zero]
    norm_num
  · rw [e1, e2]; exact htan
  · rw [e1, e2]; exact ne_of_lt htan

/-- C8, counterexample.  A round trip is not the identity for every ray:
with element rotation `45` degrees and a ray with `tan_theta = -1` (the ray
perpendicular to the rotated axis, `1 + tan(45°)·t = 0`), the local-frame
slope denominator vanishes and the recovered slope is `1`, not the original
`-1` (IEEE arithmetic produces `inf` and then `nan` at the same input — in
either semantics the original value is not restored). -/
theorem frame_tan_roundtrip_counterexample :
    tan_to_global_frame 45 (tan_to_element_frame 45 (-1)) = 1 ∧
    tan_to_global_frame 45 (tan_to_element_frame 45 (-1)) ≠ -1 := by
  have hrad : rad 45 = π / 4 := by unfold rad; ring
  have ht : Real.tan (rad 45) = 1 := by rw [hrad, Real.tan_pi_div_four]
  have h1 : tan_to_element_frame 45 (-1) = 0 := by
    unfold tan_to_element_frame; rw [ht]; norm_num
  constructor
  · rw [h1]; unfold tan_to_global_frame; rw [ht]; norm_num
  · rw [h1]; unfold tan_to_global_frame; rw [ht]; norm_num

/-- C8, amended.  For every element (any origin, any rotation) and every
ray, the `toLocal`/`toGlobal` round trip restores the position exactly in
both orders, and restores `tan_theta` exactly in both orders *provided* the
ray is not perpendicular to the rotated frame axis
(`1 + tan(theta)·t ≠ 0` for local-then-global on `t`, and
`1 - tan(theta)·u ≠ 0` for global-then-local on `u`). -/
theorem frame_roundtrip_described (theta ox oy px py t u : ℝ)
    (h1 : 1 + Real.tan (rad theta) * t ≠ 0)
    (h2 : 1 - Real.tan (rad theta) * u ≠ 0) :
    points_to_global_frame theta ox oy (points_to_object_frame theta ox oy px py).1
        (points_to_object_frame theta ox oy px py).2 = (px, py) ∧
    points_to_object_frame theta ox oy (points_to_global_frame theta ox oy px py).1
        (points_to_global_frame theta ox oy px py).2 = (px, py) ∧
    tan_to_global_frame theta (tan_to_element_frame theta t) = t ∧
    tan_to_element_frame theta (tan_to_global_frame theta u) = u := by
  have hpyth := Real.sin_sq_add_cos_sq (rad theta)
  refine ⟨?_, ?_, ?_, ?_⟩
  · by_cases h : theta = 0
    · subst h
      simp [points_to_object_frame, points_to_global_frame]
    · unfold points_to_object_frame points_to_global_frame
      rw [if_neg h, if_neg h]
      simp only [Prod.ext_iff]
      constructor
      · linear_combination (px - ox) * hpyth
      · linear_combination (py - oy) * hpyth
  · by_cases h : theta = 0
    · subst h
      simp [points_to_object_frame, points_to_global_frame]
    · unfold points_to_object_frame points_to_global_frame
      rw [if_neg h, if_neg h]
      simp only [Prod.ext_iff]
      constructor
      · linear_combination px * hpyth
      · linear_combination py * hpyth
  · unfold tan_to_element_frame tan_to_global_frame
    set T := Real.tan (rad theta) with hT
    have hden : 1 - T * ((t - T) / (1 + T * t)) = (1 + T ^ 2) / (1 + T * t) := by
      field_simp
      ring
    have hnum : T + (t - T) / (1 + T * t) = t * ((1 + T ^ 2) / (1 + T * t)) := by
      field_simp
      ring
    rw [hnum, hden]
    exact mul_div_cancel_right₀ t (div_ne_zero (by positivity) h1)
  · unfold tan_to_element_frame tan_to_global_frame
    set T := Real.tan (rad theta) with hT
    have hden : 1 + T * ((T + u) / (1 - T * u)) = (1 + T ^ 2) / (1 - T * u) := by
      field_simp
      ring
    have hnum : (T + u) / (1 - T * u) - T = u * ((1 + T ^ 2) / (1 - T * u)) := by
      field_simp
      ring
    rw [hnum, hden]
    exact mul_div_cancel_right₀ u (div_ne_zero (by positivity) h2)

/-- C8, witness for the amended round-trip law at the concrete element
`theta = 0`, origin `(3,4)`, ray at `(1,2)` with slopes `5` and `7`. -/
theorem frame_roundtrip_described_witness :
    (1 + Real.tan (rad 0) * 5 ≠ 0) ∧ (1 - Real.tan (rad 0) * 7 ≠ 0) ∧
    tan_to_global_frame 0 (tan_to_element_frame 0 5) = 5 ∧
    points_to_global_frame 0 3 4 (points_to_object_frame 0 3 4 1 2).1
        (points_to_object_frame 0 3 4 1 2).2 = (1, 2) := by
  have hz : Real.tan (rad 0) = 0 := by
    unfold rad; rw [zero_mul, zero_div, Real.tan_zero]
  have ha : (1 : ℝ) + Real.tan (rad 0) * 5 ≠ 0 := by rw [hz]; norm_num
  have hb : (1 : ℝ) - Real.tan (rad 0) * 7 ≠ 0 := by rw [hz]; norm_num
  have h := frame_roundtrip_described 0 3 4 1 2 5 7 ha hb
  exact ⟨ha, hb, h.2.2.1, h.1⟩

/-- C5, code-bug witness.  At `f = 1`, `y = 1` the two branches of
`ParabolicMirror.intersection_with` disagree in the zero-angle limit: the
`a == 0` branch solves `x = y²/(4f) = 1/4`, while the generic quadratic
branch tends to `-1/4` — the *negation* of the zero-angle formula — as the
slope `a` tends to `0`, so the claimed agreement in the limit fails. -/
theorem parabolic_branch_disagreement :
    parabolic_x_zero 1 1 = 1 / 4 ∧
    Filter.Tendsto (fun a => parabolic_x_quad 1 a 1) (nhdsWithin 0 {a : ℝ | a ≠ 0})
      (nhds (-(1 / 4))) ∧
    -(1 / 4 : ℝ) ≠ parabolic_x_zero 1 1 := by
  have hz : parabolic_x_zero 1 1 = 1 / 4 := by unfold parabolic_x_zero; norm_num
  refine ⟨hz, ?_, by rw [hz]; norm_num⟩
  have key : ∀ a : ℝ, a ∈ Set.Ioo (-1 : ℝ) 1 → a ≠ 0 →
      parabolic_x_quad 1 a 1 = -1 / (2 * Real.sqrt (1 - a) + (2 - a)) := by
    intro a ha hne
    have h1a : (0 : ℝ) ≤ 1 - a := by linarith [ha.2]
    have hsq : Real.sqrt (1 - a) ^ 2 = 1 - a := Real.sq_sqrt h1a
    have hs0 : 0 ≤ Real.sqrt (1 - a) := Real.sqrt_nonneg _
    have hden : 0 < 2 * Real.sqrt (1 - a) + (2 - a) := by nlinarith [ha.2]
    unfold parabolic_x_quad
    rw [show (1 : ℝ) * (1 - a * 1) = 1 - a by ring]
    rw [div_eq_div_iff (pow_ne_zero 2 hne) (ne_of_gt hden)]
    linear_combination 4 * hsq
  have hc : Continuous (fun a : ℝ => 2 * Real.sqrt (1 - a) + (2 - a)) := by
    have hs : Continuous fun a : ℝ => Real.sqrt (1 - a) :=
      Real.continuous_sqrt.comp (continuous_const.sub continuous_id)
    exact (continuous_const.mul hs).add (continuous_const.sub continuous_id)
  have h4 : Filter.Tendsto (fun a : ℝ => 2 * Real.sqrt (1 - a) + (2 - a))
      (nhds 0) (nhds 4) := by
    have h00 := hc.tendsto 0
    norm_num [Real.sqrt_one] at h00
    exact h00
  have hT : Filter.Tendsto (fun a : ℝ => -1 / (2 * Real.sqrt (1 - a) + (2 - a)))
      (nhds 0) (nhds (-(1 / 4))) := by
    have hd := Filter.Tendsto.div
      (tendsto_const_nhds : Filter.Tendsto (fun _ : ℝ => (-1 : ℝ)) (nhds 0) (nhds (-1)))
      h4 (by norm_num)
    have hfe : ((fun _ : ℝ => (-1 : ℝ)) / fun a : ℝ => 2 * Real.sqrt (1 - a) + (2 - a)) =
        fun a : ℝ => -1 / (2 * Real.sqrt (1 - a) + (2 - a)) := rfl
    rw [hfe] at hd
    convert hd using 2
    norm_num
  refine Filter.Tendsto.congr' ?_ (hT.mono_left nhdsWithin_le_nhds)
  have hIoo : Set.Ioo (-1 : ℝ) 1 ∈ nhds (0 : ℝ) := Ioo_mem_nhds (by norm_num) (by norm_num)
  filter_upwards [mem_nhdsWithin_of_mem_nhds hIoo, self_mem_nhdsWithin] with a ha hne
  exact (key a ha hne).symm

/-- C9, counterexample.  One unset-wavelength ray traced through a grating
with defaults `[532, 430]` (pitch `1`, order `1`) is split into two rows;
the duplicate keeps `x`, `y`, `forward` and `group` and receives wavelength
`430`, but its `tan_theta` in the output of `transform_rays` is
`tan(asin(-0.43)) ≠ 0`, not the original row's `tan_theta = 0`: the
subsequent grating-equation update is wavelength-dependent, so the
duplicate does not preserve `tan_theta` through `transform_rays`. -/
theorem grating_duplicate_counterexample :
    DiffractionGrating.transform_rays 1 1 532 [430] [⟨0, 0, 0, 1, 1, none⟩] =
      [⟨0, 0, grating_tan_update 1 1 532 0, 1, 1, some 532⟩,
       ⟨0, 0, grating_tan_update 1 1 430 0, 1, 1, some 430⟩] ∧
    grating_tan_update 1 1 430 0 ≠ 0 := by
  constructor
  · rfl
  · have he : grating_tan_update 1 1 430 0 =
        Real.tan (Real.arcsin (-(430 / 1000))) := by
      unfold grating_tan_update
      rw [Real.arctan_zero, Real.sin_zero, Real.sin_zero]
      norm_num
    rw [he, Real.tan_arcsin]
    have hpos : 0 < Real.sqrt (1 - (-(430 / 1000) : ℝ) ^ 2) :=
      Real.sqrt_pos.mpr (by norm_num)
    intro hcontra
    rcases div_eq_zero_iff.mp hcontra with h | h
    · norm_num at h
    · exact ne_of_gt hpos h

/-- C9, amended.  `transform_rays` maps the original rows in place — an
unset-wavelength row gets the first default wavelength and all rows get the
(wavelength-dependent) grating tangent update — and appends, for each
remaining default wavelength in order, one copy of the whole
originally-unset subset whose rows keep `x`, `y`, `forward` and `group`,
carry that wavelength, and get the tangent update for it; with `k`
originally-unset rows and `W = 1 + ws.length` defaults the row count grows
by exactly `k·(W-1)`. -/
theorem grating_transform_described (interference grating w0 : ℝ) (ws : List ℝ)
    (rows : List RowR) :
    DiffractionGrating.transform_rays interference grating w0 ws rows =
      rows.map (fun r =>
        if r.wavelength.isNone then
          { r with wavelength := some w0,
                   tan_theta := grating_tan_update interference grating w0 r.tan_theta }
        else
          { r with tan_theta :=
              grating_tan_update interference grating (r.wavelength.getD 0) r.tan_theta }) ++
      ws.flatMap (fun w =>
        (rows.filter (fun r => r.wavelength.isNone)).map (fun r =>
          { r with wavelength := some w,
                   tan_theta := grating_tan_update interference grating w r.tan_theta })) ∧
    (DiffractionGrating.transform_rays interference grating w0 ws rows).length =
      rows.length + (rows.filter (fun r => r.wavelength.isNone)).length * ws.length := by
  have hmain : DiffractionGrating.transform_rays interference grating w0 ws rows =
      rows.map (fun r =>
        if r.wavelength.isNone then
          { r with wavelength := some w0,
                   tan_theta := grating_tan_update interference grating w0 r.tan_theta }
        else
          { r with tan_theta :=
              grating_tan_update interference grating (r.wavelength.getD 0) r.tan_theta }) ++
      ws.flatMap (fun w =>
        (rows.filter (fun r => r.wavelength.isNone)).map (fun r =>
          { r with wavelength := some w,
                   tan_theta := grating_tan_update interference grating w r.tan_theta })) := by
    unfold DiffractionGrating.transform_rays resolve_wavelengths
    by_cases h : rows.any (fun r => r.wavelength.isNone)
    · rw [if_pos h, List.map_append]
      congr 1
      · rw [List.map_map]
        apply List.map_congr_left
        intro r _
        by_cases hr : r.wavelength = none
        · simp [hr]
        · simp [hr]
      · rw [List.map_flatMap]
        congr 1
        funext w
        rw [List.map_map, List.map_map]
        rfl
    · rw [if_neg h]
      have hall : ∀ r ∈ rows, r.wavelength.isNone = false := by
        intro r hr
        cases hb : r.wavelength.isNone
        · rfl
        · exact absurd (List.any_eq_true.mpr ⟨r, hr, hb⟩) h
      have hfil : rows.filter (fun r => r.wavelength.isNone) = [] :=
        List.filter_eq_nil_iff.mpr (by intro r hr; simp [hall r hr])
      rw [hfil]
      simp only [List.map_nil]
      have hflat : ws.flatMap (fun _ : ℝ => ([] : List RowR)) = [] := by
        induction ws with
        | nil => rfl
        | cons w ws ih => simp [ih]
      rw [hflat, List.append_nil]
      apply List.map_congr_left
      intro r hr
      have hn : r.wavelength ≠ none := by
        intro hh
        have hfalse := hall r hr
        rw [hh] at hfalse
        simp at hfalse
      simp [hn]
  refine ⟨hmain, ?_⟩
  rw [hmain, List.length_append, List.length_map, length_flatMap_map, Nat.mul_comm]

end RayPy
